import Mathlib

/-!
Shallow embedding of `custom_components/ha_inventory/inventory.py` (the
`InventoryStore` persistence core) and of the service facade in
`custom_components/ha_inventory/__init__.py`, together with theorems checking
the specification's claims about them.

Modelling conventions:
* Python `str` is `String`; Python `float` is `Rat` (no arithmetic is ever
  performed on the numeric fields, they are only stored and copied, so the
  choice of a decidable numeric type is immaterial);
* Python `None`/optional values are `Option`;
* a Python `dict` is an association list with distinct keys; insertion keeps
  the position of an existing key (as CPython dicts do);
* `datetime.now(...).isoformat()` and `uuid.uuid4()` are external inputs: every
  operation that calls them takes the produced string as an explicit argument;
* the persisted document (`Store.async_save` / `Store.async_load` of the host)
  is the JSON-like value handed to / received from the host storage helper; the
  helper itself is an external collaborator and is not modelled;
* file-system writes are returned as data (`Option (path, bytes)`) instead of
  being performed;
* Python dataclasses do not check field types at construction time; the typed
  embedding restricts loaded values to the declared field types, which every
  value produced by `asdict` satisfies (the only inputs the claims exercise).
-/

namespace HAInventory

/-- A JSON-like value, modelling the Python `Any` values that appear in
`custom_fields` and in the serialized document. -/
inductive Value where
  | str (s : String)
  | num (q : Rat)
  | bool (b : Bool)
  | null
  | list (xs : List Value)
  | dict (entries : List (String × Value))

/-- A Python `dict` with string keys, as an association list. -/
abbrev PyDict := List (String × Value)

/-- Raw file content (Python `bytes`). -/
abbrev Bytes := List Nat

/-- `d[k]` / `d.get(k)`: first binding of key `k` (a Python dict has at most
one binding per key). -/
def dictGet {α : Type} : List (String × α) → String → Option α
  | [], _ => none
  | (k', v) :: rest, k => if k' = k then some v else dictGet rest k

/-- `d[k] = v`: replace the binding of `k` in place if present (CPython keeps
the insertion position), else append a new binding. -/
def dictSet {α : Type} : List (String × α) → String → α → List (String × α)
  | [], k, v => [(k, v)]
  | (k', v') :: rest, k, v =>
    if k' = k then (k, v) :: rest else (k', v') :: dictSet rest k v

/-- `d.pop(k)`: drop the binding of `k` (at most one exists in a dict). -/
def dictPop {α : Type} : List (String × α) → String → List (String × α)
  | [], _ => []
  | (k', v') :: rest, k =>
    if k' = k then rest else (k', v') :: dictPop rest k

/-- `@dataclass class Attachment` from `inventory.py`. -/
structure Attachment where
  id : String
  category : String
  name : String
  content_type : String
  path : String
  uploaded_at : String

/-- `@dataclass class Item` from `inventory.py`.  `quantity` and
`purchase_price` are Python floats, modelled as `Rat` (see the header). -/
structure Item where
  id : String
  name : String
  description : String := ""
  area_id : Option String := none
  zone_entity_id : Option String := none
  ha_label_ids : List String := []
  category_id : Option String := none
  quantity : Rat := 1
  unit : String := "pcs"
  purchase_date : Option String := none
  purchase_price : Option Rat := none
  purchase_currency : Option String := none
  warranty_expires_at : Option String := none
  serial_number : Option String := none
  model_number : Option String := none
  asset_tag : Option String := none
  condition : Option String := none
  archived : Bool := false
  parent_item_id : Option String := none
  custom_fields : List (String × Value) := []
  attachments : List Attachment := []
  notes : String := ""
  created_at : String
  updated_at : String

/-- `@dataclass class Category` from `inventory.py`. -/
structure Category where
  id : String
  name : String
  description : String := ""
  parent_id : Option String := none
  created_at : String
  updated_at : String

/-- The in-memory state of `InventoryStore`: `self.items` and
`self.categories`, both Python dicts keyed by record id. -/
structure InventoryStore where
  items : List (String × Item)
  categories : List (String × Category)

/-- The attribute names of the `Item` dataclass, in declaration order
(`hasattr(item, key)` holds exactly for these keys). -/
def itemFieldNames : List String :=
  ["id", "name", "description", "area_id", "zone_entity_id", "ha_label_ids",
   "category_id", "quantity", "unit", "purchase_date", "purchase_price",
   "purchase_currency", "warranty_expires_at", "serial_number", "model_number",
   "asset_tag", "condition", "archived", "parent_item_id", "custom_fields",
   "attachments", "notes", "created_at", "updated_at"]

/-- One keyword argument of `async_add_item` / `async_update_item`: a string
key together with a value of the corresponding field's type.  The constructor
`unknown` models a key that is not an attribute of `Item`
(`hasattr(item, key)` is false); theorems that involve it carry the matching
side condition on its key. -/
inductive Change where
  | id (v : String)
  | name (v : String)
  | description (v : String)
  | area_id (v : Option String)
  | zone_entity_id (v : Option String)
  | ha_label_ids (v : List String)
  | category_id (v : Option String)
  | quantity (v : Rat)
  | unit (v : String)
  | purchase_date (v : Option String)
  | purchase_price (v : Option Rat)
  | purchase_currency (v : Option String)
  | warranty_expires_at (v : Option String)
  | serial_number (v : Option String)
  | model_number (v : Option String)
  | asset_tag (v : Option String)
  | condition (v : Option String)
  | archived (v : Bool)
  | parent_item_id (v : Option String)
  | custom_fields (v : List (String × Value))
  | attachments (v : List Attachment)
  | notes (v : String)
  | created_at (v : String)
  | updated_at (v : String)
  | unknown (key : String) (v : Value)

/-- The dict key of a keyword argument. -/
def Change.key : Change → String
  | .id _ => "id"
  | .name _ => "name"
  | .description _ => "description"
  | .area_id _ => "area_id"
  | .zone_entity_id _ => "zone_entity_id"
  | .ha_label_ids _ => "ha_label_ids"
  | .category_id _ => "category_id"
  | .quantity _ => "quantity"
  | .unit _ => "unit"
  | .purchase_date _ => "purchase_date"
  | .purchase_price _ => "purchase_price"
  | .purchase_currency _ => "purchase_currency"
  | .warranty_expires_at _ => "warranty_expires_at"
  | .serial_number _ => "serial_number"
  | .model_number _ => "model_number"
  | .asset_tag _ => "asset_tag"
  | .condition _ => "condition"
  | .archived _ => "archived"
  | .parent_item_id _ => "parent_item_id"
  | .custom_fields _ => "custom_fields"
  | .attachments _ => "attachments"
  | .notes _ => "notes"
  | .created_at _ => "created_at"
  | .updated_at _ => "updated_at"
  | .unknown k _ => k

/-- Whether a keyword argument is one the `Item` dataclass does not declare. -/
def Change.isUnknown : Change → Bool
  | .unknown _ _ => true
  | _ => false

/-- One iteration of the `for key, value in changes.items()` loop of
`async_update_item`: a recognized key other than `attachments` is written with
`setattr`; the key `attachments` is skipped (`continue`); a key that is not an
`Item` attribute is skipped (`hasattr` guard). -/
def applyChange (it : Item) : Change → Item
  | .id v => { it with id := v }
  | .name v => { it with name := v }
  | .description v => { it with description := v }
  | .area_id v => { it with area_id := v }
  | .zone_entity_id v => { it with zone_entity_id := v }
  | .ha_label_ids v => { it with ha_label_ids := v }
  | .category_id v => { it with category_id := v }
  | .quantity v => { it with quantity := v }
  | .unit v => { it with unit := v }
  | .purchase_date v => { it with purchase_date := v }
  | .purchase_price v => { it with purchase_price := v }
  | .purchase_currency v => { it with purchase_currency := v }
  | .warranty_expires_at v => { it with warranty_expires_at := v }
  | .serial_number v => { it with serial_number := v }
  | .model_number v => { it with model_number := v }
  | .asset_tag v => { it with asset_tag := v }
  | .condition v => { it with condition := v }
  | .archived v => { it with archived := v }
  | .parent_item_id v => { it with parent_item_id := v }
  | .custom_fields v => { it with custom_fields := v }
  | .attachments _ => it
  | .notes v => { it with notes := v }
  | .created_at v => { it with created_at := v }
  | .updated_at v => { it with updated_at := v }
  | .unknown _ _ => it

/-- The whole `for key, value in changes.items()` loop. -/
def applyChanges (it : Item) (cs : List Change) : Item :=
  cs.foldl applyChange it

/-- `InventoryStore.async_update_item`.  `now` is the value `_now_iso()`
returns during the call.  Result: the returned `Optional[Item]`, the store
state after the call, and whether `async_save` was invoked. -/
def async_update_item (s : InventoryStore) (now : String) (itemId : String)
    (changes : List Change) : Option Item × InventoryStore × Bool :=
  match dictGet s.items itemId with
  | none => (none, s, false)
  | some it =>
    let it' := { applyChanges it changes with updated_at := now }
    (some it', { s with items := dictSet s.items itemId it' }, true)

/-- `InventoryStore.async_delete_item`.  Result: the returned boolean, the
store state after the call, and whether `async_save` was invoked. -/
def async_delete_item (s : InventoryStore) (itemId : String) :
    Bool × InventoryStore × Bool :=
  if (dictGet s.items itemId).isSome then
    (true, { s with items := dictPop s.items itemId }, true)
  else
    (false, s, false)

/-- The two exceptions `async_add_item` can raise: `ValueError` for a missing
name, `TypeError` from `Item(**data)` for a keyword that is not a field. -/
inductive AddErr where
  | valueError
  | typeError

/-- `data.get("id")`: the value of the `id` keyword, if supplied. -/
def getId : List Change → Option String
  | [] => none
  | .id v :: _ => some v
  | _ :: rest => getId rest

/-- `item_id = data.get("id") or str(uuid.uuid4())`: the supplied id when it
is truthy (present and nonempty), else the generated one. -/
def chosenItemId (data : List Change) (genId : String) : String :=
  match getId data with
  | some v => if v = "" then genId else v
  | none => genId

/-- `data["id"] = item_id`: every binding whose key is `"id"` is replaced (a
dict has at most one), appending the entry when the key is absent. -/
def setId (data : List Change) (v : String) : List Change :=
  if data.any (fun c => c.key = "id") then
    data.map (fun c => if c.key = "id" then Change.id v else c)
  else data ++ [Change.id v]

/-- The default `Item` the constructor call `Item(**data)` starts from: every
defaulted field at its dataclass default, `created_at`/`updated_at` from their
`_now_iso` default factories.  `id` and `name` have no default in the source;
`async_add_item` always supplies both (it stores `item_id` under `"id"` and
raises before construction when `"name"` is absent), so the placeholders below
are always overwritten. -/
def defaultItem (now : String) : Item :=
  { id := "", name := "", created_at := now, updated_at := now }

/-- `Item(**data)` for a keyword bundle whose keys are all dataclass fields:
each supplied field overwrites its default. -/
def buildItem (now : String) (data : List Change) : Item :=
  data.foldl applyChange (defaultItem now)

/-- `InventoryStore.async_add_item`.  `now` models `_now_iso()` and `genId`
models `str(uuid.uuid4())` during the call.  Result: the created item or the
raised exception, the store state after the call, and whether `async_save`
was invoked. -/
def async_add_item (s : InventoryStore) (now genId : String)
    (data : List Change) : Except AddErr Item × InventoryStore × Bool :=
  let itemId := chosenItemId data genId
  let data2 := setId data itemId
  if data2.any (fun c => c.key = "name") then
    let data3 := data2.filter (fun c => c.key ≠ "attachments")
    if data3.any (fun c => c.isUnknown) then
      (Except.error AddErr.typeError, s, false)
    else
      let item := buildItem now data3
      (Except.ok item, { s with items := dictSet s.items item.id item }, true)
  else
    (Except.error AddErr.valueError, s, false)

/-- `handle_update_item` from `__init__.py`: reads `call.data["id"]` (outer
`none` models the `KeyError` when it is absent), strips the `"id"` key from
the bundle and forwards the rest to `async_update_item`. -/
def handle_update_item (s : InventoryStore) (now : String)
    (data : List Change) : Option (Option Item × InventoryStore × Bool) :=
  match getId data with
  | none => none
  | some itemId =>
    some (async_update_item s now itemId (data.filter (fun c => c.key ≠ "id")))

/-! ### Photo handling -/

/-- `self._hass.config.path("www/ha_inventory")`: the photo directory, as the
path the host resolves relative to its configuration directory. -/
def photoDir : String := "www/ha_inventory"

/-- `if not mime_type: mime_type = "image/jpeg"` — `None` and the empty
string are both falsy. -/
def effectiveMime (mime : Option String) : String :=
  match mime with
  | some m => if m = "" then "image/jpeg" else m
  | none => "image/jpeg"

/-- Last index of character `c` in the list (`str.rfind`), accumulator form. -/
def lastIdxAux (c : Char) : List Char → Nat → Option Nat → Option Nat
  | [], _, acc => acc
  | x :: xs, i, acc => lastIdxAux c xs (i + 1) (if x = c then some i else acc)

/-- Last index of character `c` in the list (`str.rfind`). -/
def lastIdx (l : List Char) (c : Char) : Option Nat :=
  lastIdxAux c l 0 none

/-- The extension part of `os.path.splitext(p)` (posixpath: Home Assistant
runs on a POSIX system, so the path separator is `/`): the suffix from the
last `.`, provided that dot lies after the last `/` and the basename has at
least one non-dot character before it (leading dots of the basename never
start an extension). -/
def splitextExt (s : String) : String :=
  let cs := s.toList
  match lastIdx cs '.' with
  | none => ""
  | some d =>
    let start := match lastIdx cs '/' with
      | none => 0
      | some i => i + 1
    if start ≤ d ∧ ((cs.drop start).take (d - start)).any (fun ch => ch ≠ '.')
    then String.mk (cs.drop d)
    else ""

/-- `str.replace(a, b)` for a one-character pattern and replacement, which is
a character map. -/
def replaceChar (a b : Char) (s : String) : String :=
  String.mk (s.toList.map (fun c => if c = a then b else c))

/-- `filename.replace("/", "_").replace("\\", "_")`. -/
def sanitizeFilename (s : String) : String :=
  replaceChar '\\' '_' (replaceChar '/' '_' s)

/-- The extension chosen by `async_add_item_photo_from_bytes`:
`mimetypes.guess_extension(mime_type.split(";", 1)[0]) or ".jpg"`, overridden
by the suggested filename's own extension when that filename is truthy,
contains a `.`, and its `splitext` extension is nonempty.  `guessExt` stands
for the stdlib `mimetypes.guess_extension` table, an external collaborator. -/
def photoExt (guessExt : String → Option String) (suggested : Option String)
    (mimeEff : String) : String :=
  let ext := (guessExt ((mimeEff.splitOn ";").headD mimeEff)).getD ".jpg"
  match suggested with
  | some fn =>
    if fn ≠ "" ∧ fn.contains '.' then
      let e := splitextExt fn
      if e = "" then ext else e
    else ext
  | none => ext

/-- The final filename of `async_add_item_photo_from_bytes`:
`suggested_filename or f"{item_id}-{uuid4().hex}{ext}"` (the empty suggestion
is falsy), then both path separators replaced by `_`.  `genHex` models
`uuid.uuid4().hex`. -/
def photoFilename (guessExt : String → Option String) (itemId genHex : String)
    (suggested mime : Option String) : String :=
  let ext := photoExt guessExt suggested (effectiveMime mime)
  let filename := match suggested with
    | some fn => if fn = "" then itemId ++ "-" ++ genHex ++ ext else fn
    | none => itemId ++ "-" ++ genHex ++ ext
  sanitizeFilename filename

/-- `InventoryStore.async_add_item_photo_from_bytes`.  `now` models
`_now_iso()`, `attId` the `str(uuid.uuid4())` for the attachment id, `genHex`
the `uuid4().hex` of a generated filename.  Result: the returned
`Optional[Item]`, the store after the call, whether `async_save` was invoked,
and the file write performed (path and bytes), if any. -/
def async_add_item_photo_from_bytes (guessExt : String → Option String)
    (s : InventoryStore) (now attId genHex : String) (itemId : String)
    (content : Bytes) (suggested mime : Option String) :
    Option Item × InventoryStore × Bool × Option (String × Bytes) :=
  match dictGet s.items itemId with
  | none => (none, s, false, none)
  | some it =>
    let filename := photoFilename guessExt itemId genHex suggested mime
    let filePath := photoDir ++ "/" ++ filename
    let att : Attachment :=
      { id := attId
        category := "photo"
        name := filename
        content_type := effectiveMime mime
        path := "/local/ha_inventory/" ++ filename
        uploaded_at := now }
    let it' := { it with attachments := it.attachments ++ [att],
                         updated_at := now }
    (some it', { s with items := dictSet s.items itemId it' }, true,
     some (filePath, content))

/-- The response of `session.get(image_url)`: status code, body, and the
`Content-Type` header if present. -/
structure HttpResponse where
  status : Nat
  body : Bytes
  contentType : Option String

/-- `InventoryStore.async_add_item_photo_from_url`.  The HTTP response is an
external input.  Same result shape as the bytes path. -/
def async_add_item_photo_from_url (guessExt : String → Option String)
    (s : InventoryStore) (now attId genHex : String) (itemId : String)
    (resp : HttpResponse) (suggested : Option String) :
    Option Item × InventoryStore × Bool × Option (String × Bytes) :=
  match dictGet s.items itemId with
  | none => (none, s, false, none)
  | some _ =>
    if resp.status ≠ 200 then (none, s, false, none)
    else
      let mime := resp.contentType.getD "image/jpeg"
      async_add_item_photo_from_bytes guessExt s now attId genHex itemId
        resp.body suggested (some mime)

/-- The external inputs of one `async_add_item_photo_from_bytes` call. -/
structure PhotoReq where
  now : String
  attId : String
  genHex : String
  content : Bytes
  suggested : Option String
  mime : Option String

/-- `N` successive `async_add_item_photo_from_bytes` calls on the same item,
keeping only the evolving store. -/
def addPhotos (guessExt : String → Option String) (itemId : String)
    (s : InventoryStore) (reqs : List PhotoReq) : InventoryStore :=
  reqs.foldl
    (fun st r =>
      (async_add_item_photo_from_bytes guessExt st r.now r.attId r.genHex
        itemId r.content r.suggested r.mime).2.1)
    s

/-! ### Serialization (`async_save` / `async_load`) -/

/-- The `_StoredData` TypedDict: the persisted document, a list of serialized
item dicts and a list of serialized category dicts. -/
structure StoredData where
  items : List PyDict
  categories : List PyDict

/-- `asdict` on an `Attachment`. -/
def Attachment.asdictEntries (a : Attachment) : PyDict :=
  [("id", .str a.id), ("category", .str a.category), ("name", .str a.name),
   ("content_type", .str a.content_type), ("path", .str a.path),
   ("uploaded_at", .str a.uploaded_at)]

/-- Serialization of an optional string field by `asdict`. -/
def encodeOptStr : Option String → Value
  | none => .null
  | some s => .str s

/-- Serialization of an optional numeric field by `asdict`. -/
def encodeOptNum : Option Rat → Value
  | none => .null
  | some q => .num q

/-- `asdict(item)` with `item_dict["attachments"]` replaced by the list of
attachment dicts, as `async_save` builds it. -/
def Item.asdictEntries (it : Item) : PyDict :=
  [("id", .str it.id), ("name", .str it.name),
   ("description", .str it.description),
   ("area_id", encodeOptStr it.area_id),
   ("zone_entity_id", encodeOptStr it.zone_entity_id),
   ("ha_label_ids", .list (it.ha_label_ids.map Value.str)),
   ("category_id", encodeOptStr it.category_id),
   ("quantity", .num it.quantity), ("unit", .str it.unit),
   ("purchase_date", encodeOptStr it.purchase_date),
   ("purchase_price", encodeOptNum it.purchase_price),
   ("purchase_currency", encodeOptStr it.purchase_currency),
   ("warranty_expires_at", encodeOptStr it.warranty_expires_at),
   ("serial_number", encodeOptStr it.serial_number),
   ("model_number", encodeOptStr it.model_number),
   ("asset_tag", encodeOptStr it.asset_tag),
   ("condition", encodeOptStr it.condition),
   ("archived", .bool it.archived),
   ("parent_item_id", encodeOptStr it.parent_item_id),
   ("custom_fields", .dict it.custom_fields),
   ("attachments",
    .list (it.attachments.map (fun a => .dict (Attachment.asdictEntries a)))),
   ("notes", .str it.notes),
   ("created_at", .str it.created_at), ("updated_at", .str it.updated_at)]

/-- `asdict` on a `Category`. -/
def Category.asdictEntries (c : Category) : PyDict :=
  [("id", .str c.id), ("name", .str c.name),
   ("description", .str c.description),
   ("parent_id", encodeOptStr c.parent_id),
   ("created_at", .str c.created_at), ("updated_at", .str c.updated_at)]

/-- `InventoryStore.async_save`: the document written to the host store,
built from the in-memory state. -/
def async_save (s : InventoryStore) : StoredData :=
  { items := s.items.map (fun p => Item.asdictEntries p.2)
    categories := s.categories.map (fun p => Category.asdictEntries p.2) }

/-- Decoding of the elements of a list, failing as soon as one element fails
(an exception inside a `for` loop / comprehension). -/
def listMapOpt {γ α : Type} (g : γ → Option α) : List γ → Option (List α)
  | [] => some []
  | x :: xs =>
    match g x with
    | none => none
    | some a =>
      match listMapOpt g xs with
      | none => none
      | some as0 => some (a :: as0)

/-- A serialized string field. -/
def decodeStr : Value → Option String
  | .str s => some s
  | _ => none

/-- A serialized optional string field. -/
def decodeOptStr : Value → Option (Option String)
  | .null => some none
  | .str s => some (some s)
  | _ => none

/-- A serialized numeric field. -/
def decodeNum : Value → Option Rat
  | .num q => some q
  | _ => none

/-- A serialized optional numeric field. -/
def decodeOptNum : Value → Option (Option Rat)
  | .null => some none
  | .num q => some (some q)
  | _ => none

/-- A serialized boolean field. -/
def decodeBool : Value → Option Bool
  | .bool b => some b
  | _ => none

/-- A serialized list-of-strings field. -/
def decodeStrList : Value → Option (List String)
  | .list vs => listMapOpt decodeStr vs
  | _ => none

/-- A serialized `custom_fields` mapping. -/
def decodeDictVal : Value → Option (List (String × Value))
  | .dict d => some d
  | _ => none

/-- The attribute names of the `Attachment` dataclass. -/
def attachmentFieldNames : List String :=
  ["id", "category", "name", "content_type", "path", "uploaded_at"]

/-- A required constructor argument: `Ctor(**d)` raises when the key is
absent (the field has no default). -/
def getReq {α : Type} (raw : PyDict) (k : String) (dec : Value → Option α) :
    Option α :=
  match dictGet raw k with
  | none => none
  | some v => dec v

/-- An optional constructor argument: the field's dataclass default is used
when the key is absent. -/
def getF {α : Type} (raw : PyDict) (k : String) (dec : Value → Option α)
    (dflt : α) : Option α :=
  match dictGet raw k with
  | none => some dflt
  | some v => dec v

/-- `Attachment(**a)`: all six fields are required and no other key is
accepted (`TypeError` otherwise, modelled as `none`). -/
def Attachment.ofDict (d : PyDict) : Option Attachment :=
  if (d.map Prod.fst).all (fun k => attachmentFieldNames.contains k) then do
    let id0 ← getReq d "id" decodeStr
    let category0 ← getReq d "category" decodeStr
    let name0 ← getReq d "name" decodeStr
    let ct0 ← getReq d "content_type" decodeStr
    let path0 ← getReq d "path" decodeStr
    let up0 ← getReq d "uploaded_at" decodeStr
    some { id := id0, category := category0, name := name0,
           content_type := ct0, path := path0, uploaded_at := up0 }
  else none

/-- An element of the serialized `attachments` list. -/
def decodeAttVal : Value → Option Attachment
  | .dict d => Attachment.ofDict d
  | _ => none

/-- `[Attachment(**a) for a in ...]` over a serialized attachment list. -/
def decodeAttList : Value → Option (List Attachment)
  | .list vs => listMapOpt decodeAttVal vs
  | _ => none

/-- The first third of the `Item` constructor arguments (the split into three
groups only tames elaboration cost; the semantics is that of one `Item(**d)`
call). -/
structure ItemPartA where
  id : String
  name : String
  description : String
  area_id : Option String
  zone_entity_id : Option String
  ha_label_ids : List String
  category_id : Option String
  quantity : Rat

/-- Reads the first group of `Item` constructor arguments from the keyword
dict. -/
def itemPartA (raw : PyDict) : Option ItemPartA := do
  let id0 ← getReq raw "id" decodeStr
  let name0 ← getReq raw "name" decodeStr
  let description0 ← getF raw "description" decodeStr ""
  let area0 ← getF raw "area_id" decodeOptStr none
  let zone0 ← getF raw "zone_entity_id" decodeOptStr none
  let labels0 ← getF raw "ha_label_ids" decodeStrList []
  let cat0 ← getF raw "category_id" decodeOptStr none
  let qty0 ← getF raw "quantity" decodeNum 1
  some ⟨id0, name0, description0, area0, zone0, labels0, cat0, qty0⟩

/-- The second third of the `Item` constructor arguments. -/
structure ItemPartB where
  unit : String
  purchase_date : Option String
  purchase_price : Option Rat
  purchase_currency : Option String
  warranty_expires_at : Option String
  serial_number : Option String
  model_number : Option String
  asset_tag : Option String

/-- Reads the second group of `Item` constructor arguments from the keyword
dict. -/
def itemPartB (raw : PyDict) : Option ItemPartB := do
  let unit0 ← getF raw "unit" decodeStr "pcs"
  let pd0 ← getF raw "purchase_date" decodeOptStr none
  let pp0 ← getF raw "purchase_price" decodeOptNum none
  let pc0 ← getF raw "purchase_currency" decodeOptStr none
  let w0 ← getF raw "warranty_expires_at" decodeOptStr none
  let sn0 ← getF raw "serial_number" decodeOptStr none
  let mn0 ← getF raw "model_number" decodeOptStr none
  let at0 ← getF raw "asset_tag" decodeOptStr none
  some ⟨unit0, pd0, pp0, pc0, w0, sn0, mn0, at0⟩

/-- The last third of the `Item` constructor arguments. -/
structure ItemPartC where
  condition : Option String
  archived : Bool
  parent_item_id : Option String
  custom_fields : List (String × Value)
  notes : String
  created_at : String
  updated_at : String

/-- Reads the last group of `Item` constructor arguments from the keyword
dict; `now` models the `_now_iso` default factories of the timestamps. -/
def itemPartC (now : String) (raw : PyDict) : Option ItemPartC := do
  let cond0 ← getF raw "condition" decodeOptStr none
  let arch0 ← getF raw "archived" decodeBool false
  let parent0 ← getF raw "parent_item_id" decodeOptStr none
  let cf0 ← getF raw "custom_fields" decodeDictVal []
  let notes0 ← getF raw "notes" decodeStr ""
  let ca0 ← getF raw "created_at" decodeStr now
  let ua0 ← getF raw "updated_at" decodeStr now
  some ⟨cond0, arch0, parent0, cf0, notes0, ca0, ua0⟩

/-- `Item(**item_data)` with the already reconstructed attachment list in
place of the `"attachments"` entry: unknown keys raise `TypeError` (`none`),
`id` and `name` are required, every other field falls back to its dataclass
default. -/
def itemCtor (now : String) (raw : PyDict) (atts : List Attachment) :
    Option Item :=
  if (raw.map Prod.fst).all (fun k => itemFieldNames.contains k) then do
    let a ← itemPartA raw
    let b ← itemPartB raw
    let c ← itemPartC now raw
    some { id := a.id, name := a.name, description := a.description,
           area_id := a.area_id, zone_entity_id := a.zone_entity_id,
           ha_label_ids := a.ha_label_ids, category_id := a.category_id,
           quantity := a.quantity, unit := b.unit,
           purchase_date := b.purchase_date,
           purchase_price := b.purchase_price,
           purchase_currency := b.purchase_currency,
           warranty_expires_at := b.warranty_expires_at,
           serial_number := b.serial_number, model_number := b.model_number,
           asset_tag := b.asset_tag, condition := c.condition,
           archived := c.archived, parent_item_id := c.parent_item_id,
           custom_fields := c.custom_fields, attachments := atts,
           notes := c.notes, created_at := c.created_at,
           updated_at := c.updated_at }
  else none

/-- One iteration of the item loop of `async_load`: rebuild the attachment
list from `item_data.get("attachments", [])`, then construct the item. -/
def loadItem (now : String) (raw : PyDict) : Option Item :=
  match decodeAttList ((dictGet raw "attachments").getD (Value.list [])) with
  | none => none
  | some atts => itemCtor now raw atts

/-- The attribute names of the `Category` dataclass. -/
def categoryFieldNames : List String :=
  ["id", "name", "description", "parent_id", "created_at", "updated_at"]

/-- `Category(**raw_cat)`, same conventions as `itemCtor`. -/
def categoryCtor (now : String) (raw : PyDict) : Option Category :=
  if (raw.map Prod.fst).all (fun k => categoryFieldNames.contains k) then do
    let id0 ← getReq raw "id" decodeStr
    let name0 ← getReq raw "name" decodeStr
    let description0 ← getF raw "description" decodeStr ""
    let parent0 ← getF raw "parent_id" decodeOptStr none
    let ca0 ← getF raw "created_at" decodeStr now
    let ua0 ← getF raw "updated_at" decodeStr now
    some { id := id0, name := name0, description := description0,
           parent_id := parent0, created_at := ca0, updated_at := ua0 }
  else none

/-- `InventoryStore.async_load` on a fresh store: `data or {}`, then both
loops, each record keyed by its own id.  A malformed record surfaces the
construction exception (`none`); the store starts empty, so the partially
filled maps an exception would leave behind are not observable. -/
def async_load (now : String) (doc : Option StoredData) :
    Option InventoryStore :=
  let data := doc.getD { items := [], categories := [] }
  match listMapOpt (loadItem now) data.items with
  | none => none
  | some its =>
    match listMapOpt (categoryCtor now) data.categories with
    | none => none
    | some cats =>
      some { items := its.foldl (fun m it => dictSet m it.id it) []
             categories := cats.foldl (fun m c => dictSet m c.id c) [] }

/-! ### Dictionary lemmas -/

lemma dictGet_dictSet_self {α : Type} (l : List (String × α)) (k : String)
    (v : α) : dictGet (dictSet l k v) k = some v := by
  induction l with
  | nil => simp [dictSet, dictGet]
  | cons p rest ih =>
    obtain ⟨k', v'⟩ := p
    by_cases h : k' = k
    · simp [dictSet, dictGet, h]
    · simp [dictSet, dictGet, h, ih]

lemma dictGet_dictSet_ne {α : Type} (l : List (String × α)) (k k' : String)
    (v : α) (h : k' ≠ k) : dictGet (dictSet l k v) k' = dictGet l k' := by
  induction l with
  | nil => simp [dictSet, dictGet, Ne.symm h]
  | cons p rest ih =>
    obtain ⟨k0, v0⟩ := p
    by_cases h0 : k0 = k
    · subst h0
      simp [dictSet, dictGet, Ne.symm h]
    · simp only [dictSet, if_neg h0]
      by_cases h1 : k0 = k'
      · simp [dictGet, h1]
      · simp [dictGet, h1, ih]

lemma dictGet_mem {α : Type} {l : List (String × α)} {k : String} {v : α}
    (h : dictGet l k = some v) : (k, v) ∈ l := by
  induction l with
  | nil => simp [dictGet] at h
  | cons p rest ih =>
    obtain ⟨k', v'⟩ := p
    by_cases h0 : k' = k
    · subst h0
      simp only [dictGet, if_pos rfl, Option.some.injEq] at h
      cases h
      exact List.mem_cons_self _ _
    · simp only [dictGet, if_neg h0] at h
      exact List.mem_cons_of_mem _ (ih h)

lemma mem_dictPop {α : Type} {l : List (String × α)} {k : String}
    {p : String × α} (hnd : (l.map Prod.fst).Nodup)
    (h : p ∈ dictPop l k) : p ∈ l ∧ p.1 ≠ k := by
  induction l with
  | nil => simp [dictPop] at h
  | cons q rest ih =>
    obtain ⟨k', v'⟩ := q
    simp only [List.map_cons, List.nodup_cons] at hnd
    by_cases h0 : k' = k
    · subst h0
      simp only [dictPop, if_pos rfl] at h
      refine ⟨List.mem_cons_of_mem _ h, ?_⟩
      intro hk
      exact hnd.1 (hk ▸ List.mem_map_of_mem Prod.fst h)
    · simp only [dictPop, if_neg h0, List.mem_cons] at h
      rcases h with hp | hp
      · subst hp
        exact ⟨List.mem_cons_self _ _, h0⟩
      · obtain ⟨h1, h2⟩ := ih hnd.2 hp
        exact ⟨List.mem_cons_of_mem _ h1, h2⟩

lemma dictGet_dictPop_self {α : Type} (l : List (String × α)) (k : String)
    (hnd : (l.map Prod.fst).Nodup) : dictGet (dictPop l k) k = none := by
  cases hq : dictGet (dictPop l k) k with
  | none => rfl
  | some v =>
    exact absurd rfl (mem_dictPop hnd (dictGet_mem hq)).2

/-! ### `applyChange` lemmas -/

lemma applyChange_ignored (it : Item) (c : Change)
    (h : Change.key c = "attachments" ∨ Change.key c ∉ itemFieldNames) :
    applyChange it c = it := by
  cases c <;> first
    | rfl
    | (simp only [Change.key] at h; exact absurd h (by decide))

lemma applyChanges_ignored (it : Item) (cs : List Change)
    (h : ∀ c ∈ cs, Change.key c = "attachments" ∨ Change.key c ∉ itemFieldNames) :
    applyChanges it cs = it := by
  induction cs generalizing it with
  | nil => rfl
  | cons c rest ih =>
    have h1 := applyChange_ignored it c (h c (List.mem_cons_self _ _))
    calc (c :: rest).foldl applyChange it
        = rest.foldl applyChange (applyChange it c) := rfl
      _ = rest.foldl applyChange it := by rw [h1]
      _ = it := ih it (fun c' hc' => h c' (List.mem_cons_of_mem _ hc'))

lemma applyChange_id_of (it : Item) (c : Change) (h : Change.key c ≠ "id") :
    (applyChange it c).id = it.id := by
  cases c <;> first
    | rfl
    | exact absurd rfl h

lemma applyChanges_id_of (cs : List Change)
    (h : ∀ c ∈ cs, Change.key c ≠ "id") (it : Item) :
    (applyChanges it cs).id = it.id := by
  induction cs generalizing it with
  | nil => rfl
  | cons c rest ih =>
    calc ((c :: rest).foldl applyChange it).id
        = (rest.foldl applyChange (applyChange it c)).id := rfl
      _ = (applyChange it c).id :=
          ih (fun c' hc' => h c' (List.mem_cons_of_mem _ hc')) _
      _ = it.id := applyChange_id_of it c (h c (List.mem_cons_self _ _))

/-! ### Sample values for witnesses -/

/-- A sample item with id `"a"`. -/
def itemA : Item := { id := "a", name := "A", created_at := "t0", updated_at := "t0" }

/-- A store holding `itemA` under key `"a"`. -/
def storeA : InventoryStore := ⟨[("a", itemA)], []⟩

/-! ### C9 -/

/-- C9: update_item on an id absent from the store returns not-found (`None`),
changes nothing in memory, and performs no persistence write. -/
theorem update_item_missing_id (s : InventoryStore) (now itemId : String)
    (cs : List Change) (h : dictGet s.items itemId = none) :
    async_update_item s now itemId cs = (none, s, false) := by
  simp [async_update_item, h]

/-- Witness for C9 at a concrete store and id. -/
theorem update_item_missing_id_witness :
    dictGet storeA.items "zz" = none ∧
    async_update_item storeA "t1" "zz" [Change.notes "n"] = (none, storeA, false) :=
  ⟨rfl, update_item_missing_id storeA "t1" "zz" [Change.notes "n"] rfl⟩

/-! ### C8 -/

/-- C8: when the HTTP fetch of add_item_photo_from_url responds with any
status other than 200, the call returns `None`, writes no file, performs no
save, and leaves the store unchanged. -/
theorem photo_url_non200 (guessExt : String → Option String)
    (s : InventoryStore) (now attId genHex itemId : String)
    (resp : HttpResponse) (suggested : Option String)
    (h : resp.status ≠ 200) :
    async_add_item_photo_from_url guessExt s now attId genHex itemId resp
      suggested = (none, s, false, none) := by
  cases hd : dictGet s.items itemId <;>
    simp [async_add_item_photo_from_url, hd, h]

/-- Witness for C8 at a concrete store and a 404 response. -/
theorem photo_url_non200_witness :
    (404 : Nat) ≠ 200 ∧
    async_add_item_photo_from_url (fun _ => none) storeA "t1" "u1" "h1" "a"
      ⟨404, [], none⟩ none = (none, storeA, false, none) :=
  ⟨by decide,
   photo_url_non200 (fun _ => none) storeA "t1" "u1" "h1" "a" ⟨404, [], none⟩
     none (by decide)⟩

/-! ### C2 -/

/-- C2: for an item present in the store and a change set whose keys are all
either unrecognized field names or `attachments` (the empty set included),
update_item succeeds, leaves every field unchanged except `updated_at`
(freshly set), leaves the attachment list untouched, and stores exactly that
item; moreover `updated_at` is refreshed on every successful update,
whatever the change set. -/
theorem update_item_ignored_changes (s : InventoryStore) (now itemId : String)
    (cs : List Change) (it : Item)
    (hit : dictGet s.items itemId = some it)
    (hcs : ∀ c ∈ cs, Change.key c = "attachments" ∨ Change.key c ∉ itemFieldNames) :
    async_update_item s now itemId cs =
      (some { it with updated_at := now },
       { s with items := dictSet s.items itemId { it with updated_at := now } },
       true)
    ∧ ∀ (cs' : List Change) (it2 : Item),
        (async_update_item s now itemId cs').1 = some it2 →
        it2.updated_at = now := by
  constructor
  · simp [async_update_item, hit, applyChanges_ignored it cs hcs]
  · intro cs' it2 h
    simp only [async_update_item, hit] at h
    rw [← Option.some.injEq] at h
    cases Option.some.inj h.symm
    rfl

/-- Witness for C2: an unknown key and an `attachments` key are both ignored
and only `updated_at` moves. -/
theorem update_item_ignored_changes_witness :
    dictGet storeA.items "a" = some itemA ∧
    (∀ c ∈ [Change.unknown "bogus" Value.null, Change.attachments []],
      Change.key c = "attachments" ∨ Change.key c ∉ itemFieldNames) ∧
    (async_update_item storeA "t1" "a"
        [Change.unknown "bogus" Value.null, Change.attachments []] =
      (some { itemA with updated_at := "t1" },
       { storeA with
          items := dictSet storeA.items "a" { itemA with updated_at := "t1" } },
       true)
     ∧ ∀ (cs' : List Change) (it2 : Item),
        (async_update_item storeA "t1" "a" cs').1 = some it2 →
        it2.updated_at = "t1") :=
  ⟨rfl, by decide,
   update_item_ignored_changes storeA "t1" "a"
     [Change.unknown "bogus" Value.null, Change.attachments []] itemA rfl
     (by decide)⟩

/-! ### C4 -/

/-- C4: the update_item service (which strips the `id` key from the call data
before applying changes) never changes the `id` field of any stored item,
whatever the change set. -/
theorem handle_update_item_preserves_id (s : InventoryStore) (now : String)
    (data : List Change) (itemId : String) (h : getId data = some itemId) :
    ∃ r, handle_update_item s now data = some r ∧
      ∀ k, (dictGet r.2.1.items k).map Item.id
            = (dictGet s.items k).map Item.id := by
  refine ⟨async_update_item s now itemId
    (data.filter (fun c => Change.key c ≠ "id")), by simp [handle_update_item, h], ?_⟩
  intro k
  cases hit : dictGet s.items itemId with
  | none => simp [async_update_item, hit]
  | some it =>
    have hid : ∀ c ∈ data.filter (fun c => Change.key c ≠ "id"),
        Change.key c ≠ "id" := by
      intro c hc
      exact of_decide_eq_true (List.mem_filter.mp hc).2
    have hpres : (applyChanges it (data.filter (fun c => Change.key c ≠ "id"))).id
        = it.id := applyChanges_id_of _ hid it
    simp only [async_update_item, hit]
    by_cases hk : k = itemId
    · subst hk
      rw [dictGet_dictSet_self, hit]
      simp
      simpa using hpres
    · rw [dictGet_dictSet_ne _ _ _ _ hk]

/-- Witness for C4: a change set that carries an `id` key leaves the stored
item's id untouched. -/
theorem handle_update_item_preserves_id_witness :
    getId [Change.id "a", Change.name "B"] = some "a" ∧
    ∃ r, handle_update_item storeA "t1" [Change.id "a", Change.name "B"] = some r ∧
      ∀ k, (dictGet r.2.1.items k).map Item.id
            = (dictGet storeA.items k).map Item.id :=
  ⟨rfl, handle_update_item_preserves_id storeA "t1"
    [Change.id "a", Change.name "B"] "a" rfl⟩

/-! ### C5 -/

/-- C5: delete_item is idempotent in effect — on a present id the first call
returns `True`, saves, and removes the record from both the in-memory map and
the document that save persists; the second call returns `False` and changes
nothing; on an absent id delete_item returns `False` without saving. -/
theorem delete_item_idempotent (s : InventoryStore) (itemId : String)
    (it : Item)
    (hnd : (s.items.map Prod.fst).Nodup)
    (hwf : ∀ p ∈ s.items, p.2.id = p.1)
    (hit : dictGet s.items itemId = some it) :
    async_delete_item s itemId
      = (true, { s with items := dictPop s.items itemId }, true)
    ∧ dictGet (dictPop s.items itemId) itemId = none
    ∧ (∀ d ∈ (async_save { s with items := dictPop s.items itemId }).items,
        dictGet d "id" ≠ some (Value.str itemId))
    ∧ async_delete_item { s with items := dictPop s.items itemId } itemId
        = (false, { s with items := dictPop s.items itemId }, false)
    ∧ (∀ (s2 : InventoryStore) (j : String), dictGet s2.items j = none →
        async_delete_item s2 j = (false, s2, false)) := by
  have hgone : dictGet (dictPop s.items itemId) itemId = none :=
    dictGet_dictPop_self s.items itemId hnd
  refine ⟨by simp [async_delete_item, hit], hgone, ?_, ?_, ?_⟩
  · intro d hd
    simp only [async_save, List.mem_map] at hd
    obtain ⟨p, hp, rfl⟩ := hd
    obtain ⟨hmem, hne⟩ := mem_dictPop hnd hp
    have hid : dictGet (Item.asdictEntries p.2) "id" = some (Value.str p.2.id) := rfl
    rw [hid]
    intro hcontra
    have : p.2.id = itemId := by
      have := Option.some.inj hcontra
      exact Value.str.inj this
    exact hne ((hwf p hmem) ▸ this)
  · simp [async_delete_item, hgone]
  · intro s2 j h2
    simp [async_delete_item, h2]

/-- Witness for C5 at a concrete one-item store. -/
theorem delete_item_idempotent_witness :
    (storeA.items.map Prod.fst).Nodup ∧
    (∀ p ∈ storeA.items, p.2.id = p.1) ∧
    dictGet storeA.items "a" = some itemA ∧
    (async_delete_item storeA "a"
        = (true, { storeA with items := dictPop storeA.items "a" }, true)
     ∧ dictGet (dictPop storeA.items "a") "a" = none
     ∧ (∀ d ∈ (async_save { storeA with items := dictPop storeA.items "a" }).items,
          dictGet d "id" ≠ some (Value.str "a"))
     ∧ async_delete_item { storeA with items := dictPop storeA.items "a" } "a"
          = (false, { storeA with items := dictPop storeA.items "a" }, false)
     ∧ (∀ (s2 : InventoryStore) (j : String), dictGet s2.items j = none →
          async_delete_item s2 j = (false, s2, false))) :=
  ⟨by decide, by decide, rfl,
   delete_item_idempotent storeA "a" itemA (by decide) (by decide) rfl⟩

/-! ### C7 -/

lemma sanitizeFilename_no_sep (s : String) :
    '/' ∉ (sanitizeFilename s).toList ∧ '\\' ∉ (sanitizeFilename s).toList := by
  have hl : (sanitizeFilename s).toList
      = (s.toList.map (fun c => if c = '/' then '_' else c)).map
          (fun c => if c = '\\' then '_' else c) := rfl
  rw [hl, List.map_map]
  constructor <;>
  · rw [List.mem_map]
    rintro ⟨c, _, hc⟩
    revert hc
    by_cases h1 : c = '/' <;> by_cases h2 : c = '\\' <;>
      simp [Function.comp, h1, h2]

/-- C7: the final filename used by add_item_photo_from_bytes — recorded as the
attachment's `name` and as the last path component of its `path` and of the
written file — contains neither `/` nor `\`, for every suggested filename,
item id, MIME type, and extension table. -/
theorem photo_filename_sanitized (guessExt : String → Option String)
    (itemId genHex : String) (suggested mime : Option String) :
    '/' ∉ (photoFilename guessExt itemId genHex suggested mime).toList ∧
    '\\' ∉ (photoFilename guessExt itemId genHex suggested mime).toList :=
  sanitizeFilename_no_sep _

/-! ### C6 -/

/-- The attachment record `async_add_item_photo_from_bytes` constructs from
its inputs. -/
def photoAttachment (guessExt : String → Option String)
    (now attId genHex itemId : String) (suggested mime : Option String) :
    Attachment :=
  { id := attId
    category := "photo"
    name := photoFilename guessExt itemId genHex suggested mime
    content_type := effectiveMime mime
    path := "/local/ha_inventory/" ++ photoFilename guessExt itemId genHex suggested mime
    uploaded_at := now }

/-- An item with one more attachment appended at the end of its list and
`updated_at` bumped, as the photo path produces it. -/
def withPhoto (it : Item) (now : String) (a : Attachment) : Item :=
  { it with attachments := it.attachments ++ [a], updated_at := now }

lemma photo_bytes_step (guessExt : String → Option String)
    (s : InventoryStore) (now attId genHex itemId : String) (content : Bytes)
    (suggested mime : Option String) (it : Item)
    (hit : dictGet s.items itemId = some it) :
    async_add_item_photo_from_bytes guessExt s now attId genHex itemId content
        suggested mime =
      (some (withPhoto it now (photoAttachment guessExt now attId genHex itemId suggested mime)),
       { s with items := dictSet s.items itemId (withPhoto it now (photoAttachment guessExt now attId genHex itemId suggested mime)) },
       true,
       some (photoDir ++ "/" ++ photoFilename guessExt itemId genHex suggested mime, content)) := by
  simp [async_add_item_photo_from_bytes, hit, withPhoto, photoAttachment]

lemma addPhotos_attachments_length (guessExt : String → Option String)
    (itemId : String) (reqs : List PhotoReq) :
    ∀ (s : InventoryStore) (it : Item), dictGet s.items itemId = some it →
      ∃ it2, dictGet (addPhotos guessExt itemId s reqs).items itemId = some it2 ∧
        it2.attachments.length = it.attachments.length + reqs.length := by
  induction reqs with
  | nil =>
    intro s it h
    exact ⟨it, h, by simp [addPhotos]⟩
  | cons r rest ih =>
    intro s it h
    have hstep := photo_bytes_step guessExt s r.now r.attId r.genHex itemId
      r.content r.suggested r.mime it h
    have hget : dictGet ((async_add_item_photo_from_bytes guessExt s r.now
        r.attId r.genHex itemId r.content r.suggested r.mime).2.1).items itemId
        = some (withPhoto it r.now (photoAttachment guessExt r.now r.attId r.genHex itemId r.suggested r.mime)) := by
      rw [hstep]
      exact dictGet_dictSet_self _ _ _
    obtain ⟨it2, h2, hlen⟩ := ih _ _ hget
    refine ⟨it2, h2, ?_⟩
    rw [hlen]
    simp [withPhoto]
    omega

/-- C6: each successful add_item_photo_from_bytes appends exactly one
attachment (category `"photo"`, path `/local/ha_inventory/` plus its name) to
the end of the item's list, never removing or modifying existing ones, and
after `N` successful photo adds to an item that started with no attachments
the attachment count equals `N`. -/
theorem photo_bytes_appends_one (guessExt : String → Option String)
    (s : InventoryStore) (now attId genHex itemId : String) (content : Bytes)
    (suggested mime : Option String) (it : Item)
    (hit : dictGet s.items itemId = some it) :
    (∃ a : Attachment, a.category = "photo" ∧
      a.path = "/local/ha_inventory/" ++ a.name ∧
      async_add_item_photo_from_bytes guessExt s now attId genHex itemId
          content suggested mime =
        (some (withPhoto it now a),
         { s with items := dictSet s.items itemId (withPhoto it now a) },
         true,
         some (photoDir ++ "/" ++ a.name, content)))
    ∧ (it.attachments = [] → ∀ reqs : List PhotoReq,
        ∃ it2, dictGet (addPhotos guessExt itemId s reqs).items itemId = some it2 ∧
          it2.attachments.length = reqs.length) := by
  constructor
  · exact ⟨photoAttachment guessExt now attId genHex itemId suggested mime,
      rfl, rfl,
      photo_bytes_step guessExt s now attId genHex itemId content suggested
        mime it hit⟩
  · intro hemp reqs
    obtain ⟨it2, h2, hlen⟩ :=
      addPhotos_attachments_length guessExt itemId reqs s it hit
    exact ⟨it2, h2, by simp [hlen, hemp]⟩

/-- Witness for C6 at a concrete store. -/
theorem photo_bytes_appends_one_witness :
    dictGet storeA.items "a" = some itemA ∧
    ((∃ a : Attachment, a.category = "photo" ∧
      a.path = "/local/ha_inventory/" ++ a.name ∧
      async_add_item_photo_from_bytes (fun _ => none) storeA "t1" "u1" "h1" "a"
          [1, 2] none none =
        (some (withPhoto itemA "t1" a),
         { storeA with items := dictSet storeA.items "a" (withPhoto itemA "t1" a) },
         true,
         some (photoDir ++ "/" ++ a.name, [1, 2])))
    ∧ (itemA.attachments = [] → ∀ reqs : List PhotoReq,
        ∃ it2, dictGet (addPhotos (fun _ => none) "a" storeA reqs).items "a" = some it2 ∧
          it2.attachments.length = reqs.length)) :=
  ⟨rfl, photo_bytes_appends_one (fun _ => none) storeA "t1" "u1" "h1" "a"
    [1, 2] none none itemA rfl⟩

/-! ### C3 -/

lemma mem_setId {data : List Change} {v : String} {c : Change}
    (h : c ∈ setId data v) :
    c = Change.id v ∨ (c ∈ data ∧ Change.key c ≠ "id") := by
  unfold setId at h
  by_cases hb : data.any (fun c => Change.key c = "id") = true
  · rw [if_pos hb] at h
    rw [List.mem_map] at h
    obtain ⟨c0, hc0, rfl⟩ := h
    by_cases hk : Change.key c0 = "id"
    · rw [if_pos hk]
      exact Or.inl rfl
    · rw [if_neg hk]
      exact Or.inr ⟨hc0, hk⟩
  · rw [if_neg hb] at h
    rw [Bool.not_eq_true, List.any_eq_false] at hb
    rcases List.mem_append.mp h with h1 | h1
    · refine Or.inr ⟨h1, ?_⟩
      have := hb c h1
      simpa using this
    · exact Or.inl (List.mem_singleton.mp h1)

lemma setId_any_name_true (data : List Change) (v : String)
    (h : data.any (fun c => Change.key c = "name") = true) :
    (setId data v).any (fun c => Change.key c = "name") = true := by
  rw [List.any_eq_true] at h ⊢
  obtain ⟨c0, hc0, hp⟩ := h
  have hk : Change.key c0 = "name" := by simpa using hp
  have hkid : ¬ Change.key c0 = "id" := by rw [hk]; decide
  unfold setId
  by_cases hb : data.any (fun c => Change.key c = "id") = true
  · rw [if_pos hb]
    exact ⟨c0, List.mem_map.mpr ⟨c0, hc0, by rw [if_neg hkid]⟩, hp⟩
  · rw [if_neg hb]
    exact ⟨c0, List.mem_append_left _ hc0, hp⟩

lemma setId_has_id (data : List Change) (v : String) :
    Change.id v ∈ setId data v := by
  unfold setId
  by_cases hb : data.any (fun c => Change.key c = "id") = true
  · rw [if_pos hb]
    rw [List.any_eq_true] at hb
    obtain ⟨c0, hc0, hp⟩ := hb
    exact List.mem_map.mpr ⟨c0, hc0, by rw [if_pos (by simpa using hp)]⟩
  · rw [if_neg hb]
    exact List.mem_append_right _ (List.mem_singleton.mpr rfl)

lemma setId_no_unknown {data : List Change} (v : String)
    (h : ∀ c ∈ data, Change.isUnknown c = false) :
    ∀ c ∈ setId data v, Change.isUnknown c = false := by
  intro c hc
  rcases mem_setId hc with rfl | ⟨hmem, _⟩
  · rfl
  · exact h c hmem

/-- C3: add_item on a field bundle with no `name` key raises `ValueError`,
adds nothing, and performs no persistence write — the store is untouched. -/
theorem add_item_missing_name (s : InventoryStore) (now genId : String)
    (data : List Change) (h : ∀ c ∈ data, Change.key c ≠ "name") :
    async_add_item s now genId data
      = (Except.error AddErr.valueError, s, false) := by
  have hname : ∀ v, (setId data v).any (fun c => Change.key c = "name") = false := by
    intro v
    rw [List.any_eq_false]
    intro c hc
    rcases mem_setId hc with rfl | ⟨hmem, _⟩
    · simp [Change.key]
    · simp [h c hmem]
  simp [async_add_item, hname]

/-- Witness for C3: a bundle carrying only `notes` (and even an `attachments`
and an unrecognized key) fails with `ValueError` and leaves the store as it
was. -/
theorem add_item_missing_name_witness :
    (∀ c ∈ [Change.notes "x", Change.attachments [], Change.unknown "zz" Value.null],
      Change.key c ≠ "name") ∧
    async_add_item storeA "t1" "g1"
        [Change.notes "x", Change.attachments [], Change.unknown "zz" Value.null]
      = (Except.error AddErr.valueError, storeA, false) :=
  ⟨by decide,
   add_item_missing_name storeA "t1" "g1"
     [Change.notes "x", Change.attachments [], Change.unknown "zz" Value.null]
     (by decide)⟩

/-! ### C10 -/

lemma foldl_applyChange_id_stable (l : List Change) (x : String)
    (hall : ∀ c ∈ l, Change.key c = "id" → c = Change.id x) :
    ∀ it : Item, it.id = x → (l.foldl applyChange it).id = x := by
  induction l with
  | nil => intro it h; exact h
  | cons c rest ih =>
    intro it hid
    show (rest.foldl applyChange (applyChange it c)).id = x
    by_cases hk : Change.key c = "id"
    · have hc := hall c (List.mem_cons_self _ _) hk
      subst hc
      exact ih (fun c' hc' hk' => hall c' (List.mem_cons_of_mem _ hc') hk') _ rfl
    · have h1 : (applyChange it c).id = it.id := applyChange_id_of it c hk
      exact ih (fun c' hc' hk' => hall c' (List.mem_cons_of_mem _ hc') hk') _
        (h1.trans hid)

lemma foldl_applyChange_id (l : List Change) (x : String)
    (hall : ∀ c ∈ l, Change.key c = "id" → c = Change.id x)
    (hex : ∃ c ∈ l, Change.key c = "id") :
    ∀ it : Item, (l.foldl applyChange it).id = x := by
  induction l with
  | nil => simp at hex
  | cons c rest ih =>
    intro it
    show (rest.foldl applyChange (applyChange it c)).id = x
    by_cases hk : Change.key c = "id"
    · have hc := hall c (List.mem_cons_self _ _) hk
      subst hc
      exact foldl_applyChange_id_stable rest x
        (fun c' hc' hk' => hall c' (List.mem_cons_of_mem _ hc') hk') _ rfl
    · obtain ⟨c0, hc0, hk0⟩ := hex
      rcases List.mem_cons.mp hc0 with rfl | hc0'
      · exact absurd hk0 hk
      · exact ih (fun c' hc' hk' => hall c' (List.mem_cons_of_mem _ hc') hk')
          ⟨c0, hc0', hk0⟩ _

lemma add_item_builds (s : InventoryStore) (now genId : String)
    (data : List Change) (x : String)
    (hname : data.any (fun c => Change.key c = "name") = true)
    (hknown : ∀ c ∈ data, Change.isUnknown c = false)
    (hx : chosenItemId data genId = x) :
    ∃ newIt, async_add_item s now genId data
        = (Except.ok newIt, { s with items := dictSet s.items x newIt }, true)
      ∧ newIt.id = x := by
  have h2 : (setId data x).any (fun c => Change.key c = "name") = true :=
    setId_any_name_true data x hname
  have h3 : ((setId data x).filter (fun c => Change.key c ≠ "attachments")).any
      (fun c => Change.isUnknown c) = false := by
    rw [List.any_eq_false]
    intro c hc
    have hc2 : c ∈ setId data x := (List.mem_filter.mp hc).1
    simp [setId_no_unknown x hknown c hc2]
  have hall : ∀ c ∈ (setId data x).filter (fun c => Change.key c ≠ "attachments"),
      Change.key c = "id" → c = Change.id x := by
    intro c hc hk
    rcases mem_setId (List.mem_filter.mp hc).1 with rfl | ⟨_, hne⟩
    · rfl
    · exact absurd hk hne
  have hex : ∃ c ∈ (setId data x).filter (fun c => Change.key c ≠ "attachments"),
      Change.key c = "id" := by
    exact ⟨Change.id x, List.mem_filter.mpr ⟨setId_has_id data x, rfl⟩, rfl⟩
  have hid : (buildItem now
      ((setId data x).filter (fun c => Change.key c ≠ "attachments"))).id = x :=
    foldl_applyChange_id _ x hall hex _
  refine ⟨buildItem now
    ((setId data x).filter (fun c => Change.key c ≠ "attachments")), ?_, hid⟩
  simp only [async_add_item, hx, h2, h3, hid, eq_self_iff_true, if_true,
    Bool.false_eq_true, if_false]

/-- C10 (implicit): add_item performs no uniqueness check on a supplied id —
given a `name` and an `id` equal to a stored item's key, it succeeds and
rebinds that key to the newly built item (the old record is gone); a supplied
empty-string id is falsy and is replaced by the generated id. -/
theorem add_item_id_overwrites (s : InventoryStore) (now genId : String)
    (data : List Change)
    (hname : data.any (fun c => Change.key c = "name") = true)
    (hknown : ∀ c ∈ data, Change.isUnknown c = false) :
    (∀ v it0, getId data = some v → v ≠ "" → dictGet s.items v = some it0 →
      ∃ newIt, async_add_item s now genId data
          = (Except.ok newIt, { s with items := dictSet s.items v newIt }, true)
        ∧ newIt.id = v ∧ dictGet (dictSet s.items v newIt) v = some newIt)
    ∧ (getId data = some "" →
      ∃ newIt, async_add_item s now genId data
          = (Except.ok newIt, { s with items := dictSet s.items genId newIt }, true)
        ∧ newIt.id = genId
        ∧ dictGet (dictSet s.items genId newIt) genId = some newIt) := by
  constructor
  · intro v it0 hv hne _
    have hx : chosenItemId data genId = v := by
      simp [chosenItemId, hv, hne]
    obtain ⟨newIt, heq, hid⟩ := add_item_builds s now genId data v hname hknown hx
    exact ⟨newIt, heq, hid, dictGet_dictSet_self _ _ _⟩
  · intro hv
    have hx : chosenItemId data genId = genId := by
      simp [chosenItemId, hv]
    obtain ⟨newIt, heq, hid⟩ :=
      add_item_builds s now genId data genId hname hknown hx
    exact ⟨newIt, heq, hid, dictGet_dictSet_self _ _ _⟩

/-- Witness for C10: adding with id `"a"` (already bound in the store) and a
name succeeds and rebinds `"a"`; the empty-id branch holds as well. -/
theorem add_item_id_overwrites_witness :
    [Change.id "a", Change.name "N"].any (fun c => Change.key c = "name") = true ∧
    (∀ c ∈ [Change.id "a", Change.name "N"], Change.isUnknown c = false) ∧
    ((∀ v it0, getId [Change.id "a", Change.name "N"] = some v → v ≠ "" →
      dictGet storeA.items v = some it0 →
      ∃ newIt, async_add_item storeA "t1" "g1" [Change.id "a", Change.name "N"]
          = (Except.ok newIt, { storeA with items := dictSet storeA.items v newIt }, true)
        ∧ newIt.id = v ∧ dictGet (dictSet storeA.items v newIt) v = some newIt)
    ∧ (getId [Change.id "a", Change.name "N"] = some "" →
      ∃ newIt, async_add_item storeA "t1" "g1" [Change.id "a", Change.name "N"]
          = (Except.ok newIt, { storeA with items := dictSet storeA.items "g1" newIt }, true)
        ∧ newIt.id = "g1"
        ∧ dictGet (dictSet storeA.items "g1" newIt) "g1" = some newIt)) :=
  ⟨by decide, by decide,
   add_item_id_overwrites storeA "t1" "g1" [Change.id "a", Change.name "N"]
     (by decide) (by decide)⟩

/-! ### C1 -/

lemma attachment_ofDict_asdict (a : Attachment) :
    Attachment.ofDict (Attachment.asdictEntries a) = some a := rfl

lemma listMapOpt_roundtrip {γ α : Type} (g : γ → Option α) (f : α → γ)
    (h : ∀ x, g (f x) = some x) (l : List α) :
    listMapOpt g (l.map f) = some l := by
  induction l with
  | nil => rfl
  | cons a t ih => simp [listMapOpt, h, ih]

lemma listMapOpt_map {γ α β : Type} (g : γ → Option β) (f : α → γ) (e : α → β)
    (h : ∀ x, g (f x) = some (e x)) (l : List α) :
    listMapOpt g (l.map f) = some (l.map e) := by
  induction l with
  | nil => rfl
  | cons a t ih => simp [listMapOpt, h, ih]

lemma decodeOptStr_encode (x : Option String) :
    decodeOptStr (encodeOptStr x) = some x := by
  cases x <;> rfl

lemma decodeOptNum_encode (x : Option Rat) :
    decodeOptNum (encodeOptNum x) = some x := by
  cases x <;> rfl

lemma decodeStrList_encode (l : List String) :
    decodeStrList (Value.list (l.map Value.str)) = some l :=
  listMapOpt_roundtrip decodeStr Value.str (fun _ => rfl) l

lemma decodeAttList_encode (l : List Attachment) :
    decodeAttList (Value.list
      (l.map (fun a => Value.dict (Attachment.asdictEntries a)))) = some l :=
  listMapOpt_roundtrip decodeAttVal
    (fun a => Value.dict (Attachment.asdictEntries a))
    (fun a => attachment_ofDict_asdict a) l

lemma itemPartA_asdict (it : Item) :
    itemPartA (Item.asdictEntries it)
      = some ⟨it.id, it.name, it.description, it.area_id, it.zone_entity_id,
              it.ha_label_ids, it.category_id, it.quantity⟩ := by
  simp [itemPartA, Item.asdictEntries, getReq, getF, dictGet, decodeStr,
    decodeNum, decodeOptStr_encode, decodeStrList_encode]

lemma itemPartB_asdict (it : Item) :
    itemPartB (Item.asdictEntries it)
      = some ⟨it.unit, it.purchase_date, it.purchase_price,
              it.purchase_currency, it.warranty_expires_at, it.serial_number,
              it.model_number, it.asset_tag⟩ := by
  simp [itemPartB, Item.asdictEntries, getReq, getF, dictGet, decodeStr,
    decodeOptStr_encode, decodeOptNum_encode]

lemma itemPartC_asdict (now : String) (it : Item) :
    itemPartC now (Item.asdictEntries it)
      = some ⟨it.condition, it.archived, it.parent_item_id, it.custom_fields,
              it.notes, it.created_at, it.updated_at⟩ := by
  simp [itemPartC, Item.asdictEntries, getReq, getF, dictGet, decodeStr,
    decodeBool, decodeDictVal, decodeOptStr_encode]

lemma itemCtor_asdict (now : String) (it : Item) :
    itemCtor now (Item.asdictEntries it) it.attachments = some it := by
  have hkeys : ((Item.asdictEntries it).map Prod.fst).all
      (fun k => itemFieldNames.contains k) = true := rfl
  rw [itemCtor, if_pos hkeys]
  simp [itemPartA_asdict, itemPartB_asdict, itemPartC_asdict]

lemma loadItem_asdict (now : String) (it : Item) :
    loadItem now (Item.asdictEntries it) = some it := by
  have hatt : (dictGet (Item.asdictEntries it) "attachments").getD (Value.list [])
      = Value.list (it.attachments.map
          (fun a => Value.dict (Attachment.asdictEntries a))) := rfl
  rw [loadItem, hatt, decodeAttList_encode]
  exact itemCtor_asdict now it

lemma categoryCtor_asdict (now : String) (c : Category) :
    categoryCtor now (Category.asdictEntries c) = some c := by
  have hkeys : ((Category.asdictEntries c).map Prod.fst).all
      (fun k => categoryFieldNames.contains k) = true := rfl
  rw [categoryCtor, if_pos hkeys]
  simp [Category.asdictEntries, getReq, getF, dictGet, decodeStr,
    decodeOptStr_encode]

lemma dictSet_of_not_mem {α : Type} (l : List (String × α)) (k : String)
    (v : α) (h : k ∉ l.map Prod.fst) : dictSet l k v = l ++ [(k, v)] := by
  induction l with
  | nil => rfl
  | cons p rest ih =>
    obtain ⟨k0, v0⟩ := p
    simp only [List.map_cons, List.mem_cons] at h
    push_neg at h
    rw [dictSet, if_neg (Ne.symm h.1), ih h.2]
    rfl

lemma foldl_dictSet_fresh {α : Type} (key : α → String) (xs : List α) :
    ∀ acc : List (String × α),
      (∀ x ∈ xs, key x ∉ acc.map Prod.fst) →
      (xs.map key).Nodup →
      xs.foldl (fun m x => dictSet m (key x) x) acc
        = acc ++ xs.map (fun x => (key x, x)) := by
  induction xs with
  | nil => intro acc _ _; simp
  | cons x rest ih =>
    intro acc hdisj hnd
    simp only [List.map_cons, List.nodup_cons] at hnd
    rw [List.foldl_cons,
      dictSet_of_not_mem acc (key x) x (hdisj x (List.mem_cons_self _ _)),
      ih (acc ++ [(key x, x)]) ?_ hnd.2]
    · simp
    · intro y hy
      rw [List.map_append, List.mem_append]
      push_neg
      refine ⟨hdisj y (List.mem_cons_of_mem _ hy), ?_⟩
      simp only [List.map_cons, List.map_nil, List.mem_singleton]
      intro hc
      exact hnd.1 (hc ▸ List.mem_map_of_mem key hy)

/-- C1 as amended: on every well-formed state — both maps have distinct keys
and each record is bound under its own id, as every state built by load and
the service operations is — saving and then loading into a fresh store
reproduces the items map and the categories map exactly, every field and
every nested attachment included. -/
theorem save_load_roundtrip (now : String) (s : InventoryStore)
    (hnd : (s.items.map Prod.fst).Nodup)
    (hwf : ∀ p ∈ s.items, p.2.id = p.1)
    (hcnd : (s.categories.map Prod.fst).Nodup)
    (hcwf : ∀ p ∈ s.categories, p.2.id = p.1) :
    async_load now (some (async_save s)) = some s := by
  have hnd2 : ((s.items.map Prod.snd).map Item.id).Nodup := by
    rw [List.map_map]
    have he : s.items.map (Item.id ∘ Prod.snd) = s.items.map Prod.fst :=
      List.map_congr_left (fun p hp => hwf p hp)
    rw [he]
    exact hnd
  have hcnd2 : ((s.categories.map Prod.snd).map Category.id).Nodup := by
    rw [List.map_map]
    have he : s.categories.map (Category.id ∘ Prod.snd)
        = s.categories.map Prod.fst :=
      List.map_congr_left (fun p hp => hcwf p hp)
    rw [he]
    exact hcnd
  have hfi : (s.items.map Prod.snd).foldl
      (fun m it => dictSet m it.id it) [] = s.items := by
    rw [foldl_dictSet_fresh Item.id (s.items.map Prod.snd) [] (by simp) hnd2,
      List.nil_append, List.map_map]
    have he : ∀ p ∈ s.items, ((fun x => (Item.id x, x)) ∘ Prod.snd) p = p := by
      intro p hp
      simp [Function.comp, hwf p hp]
    rw [List.map_congr_left he]
    simp
  have hfc : (s.categories.map Prod.snd).foldl
      (fun m c => dictSet m c.id c) [] = s.categories := by
    rw [foldl_dictSet_fresh Category.id (s.categories.map Prod.snd) []
      (by simp) hcnd2, List.nil_append, List.map_map]
    have he : ∀ p ∈ s.categories,
        ((fun x => (Category.id x, x)) ∘ Prod.snd) p = p := by
      intro p hp
      simp [Function.comp, hcwf p hp]
    rw [List.map_congr_left he]
    simp
  have hitems := listMapOpt_map (loadItem now)
    (fun p => Item.asdictEntries p.2) Prod.snd
    (fun p => loadItem_asdict now p.2) s.items
  have hcats := listMapOpt_map (categoryCtor now)
    (fun p => Category.asdictEntries p.2) Prod.snd
    (fun p => categoryCtor_asdict now p.2) s.categories
  simp only [async_load, async_save, Option.getD_some, hitems, hcats, hfi, hfc]

/-- Witness for the amended C1 at a concrete well-formed store. -/
theorem save_load_roundtrip_witness :
    (storeA.items.map Prod.fst).Nodup ∧
    (∀ p ∈ storeA.items, p.2.id = p.1) ∧
    (storeA.categories.map Prod.fst).Nodup ∧
    (∀ p ∈ storeA.categories, p.2.id = p.1) ∧
    async_load "t1" (some (async_save storeA)) = some storeA :=
  ⟨by decide, by decide, by decide, by decide,
   save_load_roundtrip "t1" storeA (by decide) (by decide) (by decide)
     (by decide)⟩

/-- An item whose record id `"y"` differs from the key it is stored under. -/
def itemY : Item := { id := "y", name := "Y", created_at := "t0", updated_at := "t0" }

/-- A store binding `itemY` under the foreign key `"x"`. -/
def storeX : InventoryStore := ⟨[("x", itemY)], []⟩

/-- Counterexample to C1 as stated: for the in-memory state that binds an
item with id `"y"` under key `"x"`, save-then-load does not reproduce the
items map — async_load keys every record by its own id, so the key becomes
`"y"`. -/
theorem save_load_roundtrip_cex :
    async_load "t1" (some (async_save storeX)) ≠ some storeX := by
  intro h
  have h2 : (async_load "t1" (some (async_save storeX))).map
      (fun st => st.items.map Prod.fst) = some ["y"] := rfl
  rw [h] at h2
  simp [storeX] at h2

end HAInventory
